import Mathlib

/-!
Verification of the `AnswerGenerator` RAG answer-generation pipeline
(`src/rag/generation/generator.py`).

The Python class is shallowly embedded below:

* a `Doc` is a dictionary with optional `content` and optional `metadata`
  (itself holding optional `title`, `authors`, `year`);
* `formatContext` embeds `_format_context`;
* `extractCitations` embeds `_extract_citations`;
* `generate` embeds `generate`, with the LangChain LLM call abstracted as an
  oracle `llm : String → String` from the rendered prompt to the model text,
  and `llmConfigured` embedding the truthiness test `if api_key` performed by
  `__init__` to decide whether `self.llm` is set.

Python's decimal rendering of the loop index inside the f-strings `f"[{i}] ..."`
and `f"[{i}]"` is embedded by `natChars`, and Python's substring test
`f"[{i}]" in answer` by `pyIn`.

The `spec…` family of definitions is modelled on the specification's own
wording of context formatting, to be compared with the source-derived
`formatContext`.  The `splitOnNl` / `lineMarker` / `markerLines` family is
analysis vocabulary for talking about the lines of the context block and the
citation markers that start them.
-/

set_option autoImplicit false

namespace MediAssist

/-- Metadata mapping of a retrieved document: the three optional keys the
generator reads (`title`, `authors`, `year`). -/
structure Metadata where
  title : Option String
  authors : Option String
  year : Option Int
deriving DecidableEq

/-- A retrieved document: a dictionary with optional `content` and optional
`metadata` keys, as consumed by `_format_context` and `_extract_citations`. -/
structure Doc where
  content : Option String
  metadata : Option Metadata
deriving DecidableEq

/-- A citation record as built by `_extract_citations`:
`{"index": i, "title": ..., "authors": ..., "year": ...}`. -/
structure Citation where
  index : Nat
  title : Option String
  authors : Option String
  year : Option Int
deriving DecidableEq

/-- The result dictionary returned by `generate`: `{"answer": ..., "sources": ...}`. -/
structure GenResult where
  answer : String
  sources : List Citation
deriving DecidableEq

/-- The empty dictionary default `doc.get("metadata", {})`. -/
def emptyMetadata : Metadata := ⟨none, none, none⟩

/-- Decimal digit character for a single digit value, as produced by Python's
decimal formatting of nonnegative integers. -/
def digitChar (d : Nat) : Char :=
  match d with
  | 0 => '0'
  | 1 => '1'
  | 2 => '2'
  | 3 => '3'
  | 4 => '4'
  | 5 => '5'
  | 6 => '6'
  | 7 => '7'
  | 8 => '8'
  | 9 => '9'
  | _ => '0'

/-- Fuel-driven most-significant-first decimal expansion; `natCharsAux fuel n`
is the digit string of `n` (empty for `0`) whenever `n ≤ fuel`. -/
def natCharsAux : Nat → Nat → List Char
  | 0, _ => []
  | fuel + 1, n =>
    if n = 0 then [] else natCharsAux fuel (n / 10) ++ [digitChar (n % 10)]

/-- Decimal digit string of a natural number, embedding Python's `str(i)` /
f-string rendering of the 1-based loop index. -/
def natChars (n : Nat) : List Char :=
  if n = 0 then ['0'] else natCharsAux n n

/-- Decimal rendering of a natural number as a `String`. -/
def natStr (n : Nat) : String := String.mk (natChars n)

/-- Numeric value of a decimal digit string, used to invert `natChars`. -/
def valChars (ds : List Char) : Nat :=
  ds.foldl (fun a c => a * 10 + (c.toNat - 48)) 0

/-- Boolean test that `needle` occurs at the head of `hay`. -/
def leadMatch : List Char → List Char → Bool
  | [], _ => true
  | x :: xs, y :: ys => x == y && leadMatch xs ys
  | _ :: _, [] => false

/-- Boolean substring containment on character lists. -/
def containsSub (needle : List Char) : List Char → Bool
  | [] => needle.isEmpty
  | c :: hs => leadMatch needle (c :: hs) || containsSub needle hs

/-- Python's substring test `needle in hay` on strings. -/
def pyIn (needle hay : String) : Bool := containsSub needle.data hay.data

/-- Python's `sep.join(parts)`, used as `"\n\n".join(parts)` in `_format_context`. -/
def joinSep (sep : String) : List String → String
  | [] => ""
  | [p] => p
  | p :: q :: rest => p ++ sep ++ joinSep sep (q :: rest)

/-- One rendered context entry `f"[{i}] {title}\n{content}"`, with
`title = doc.get("metadata", {}).get("title", "Unknown")` and
`content = doc.get("content", "")`. -/
def renderDoc (i : Nat) (doc : Doc) : String :=
  "[" ++ natStr i ++ "] " ++ (doc.metadata.getD emptyMetadata).title.getD "Unknown"
    ++ "\n" ++ doc.content.getD ""

/-- Embedding of `_format_context`: number the documents from 1 in input order,
render each, and join with blank-line separators. -/
def formatContext (documents : List Doc) : String :=
  joinSep "\n\n" ((List.enumFrom 1 documents).map (fun p => renderDoc p.1 p.2))

/-- The citation marker `f"[{i}]"` searched for in the generated answer. -/
def marker (i : Nat) : String := "[" ++ natStr i ++ "]"

/-- The citation dictionary appended for document `i` by `_extract_citations`,
with `metadata = doc.get("metadata", {})` and plain `.get` (default `None`)
for the three fields. -/
def mkCitation (i : Nat) (doc : Doc) : Citation :=
  ⟨i, (doc.metadata.getD emptyMetadata).title, (doc.metadata.getD emptyMetadata).authors,
    (doc.metadata.getD emptyMetadata).year⟩

/-- Embedding of `_extract_citations`: for each document index `i` (1-based, in
input order), append a citation when the literal substring `f"[{i}]"` occurs in
the answer. -/
def extractCitations (answer : String) (documents : List Doc) : List Citation :=
  ((List.enumFrom 1 documents).filter (fun p => pyIn (marker p.1) answer)).map
    (fun p => mkCitation p.1 p.2)

/-- The fixed degraded-mode answer `"LLM이 구성되지 않았습니다."`. -/
def notConfiguredAnswer : String := "LLM이 구성되지 않았습니다."

/-- The fully rendered `MEDICAL_PROMPT` template with `{context}` and
`{question}` substituted. -/
def medicalPrompt (context question : String) : String :=
  "당신은 의료 전문가를 위한 진단 보조 AI입니다.\n아래 참고 문헌을 바탕으로 질문에 답변하세요.\n\n## 참고 문헌\n"
    ++ context
    ++ "\n\n## 질문\n"
    ++ question
    ++ "\n\n## 지침\n1. 문헌에 근거하여 답변하세요\n2. 불확실한 경우 명시적으로 표현하세요\n3. 참고문헌을 [1], [2] 형식으로 인용하세요\n4. 이 정보는 참고용이며 최종 진단은 의사가 결정해야 함을 명시하세요\n\n## 답변"

/-- Python truthiness of the optional `api_key` string (`None` and `""` are falsy). -/
def pyTruthy : Option String → Bool
  | none => false
  | some s => !s.isEmpty

/-- Embedding of `__init__`: `self.llm` is a configured client exactly when the
`api_key` argument is truthy (`self.llm = ChatOpenAI(...) if api_key else None`). -/
def llmConfigured (apiKey : Option String) : Bool := pyTruthy apiKey

/-- Embedding of `generate`: in degraded mode return the fixed answer with no
sources; otherwise format the context, invoke the model on the rendered prompt,
and extract citations from the returned text. -/
def generate (hasLLM : Bool) (llm : String → String) (question : String)
    (documents : List Doc) : GenResult :=
  if !hasLLM then
    ⟨notConfiguredAnswer, []⟩
  else
    let context := formatContext documents
    let ans := llm (medicalPrompt context question)
    ⟨ans, extractCitations ans documents⟩

/-- Modelled on the spec's words: the title shown for a document, "Unknown"
when the metadata or its title is missing. -/
def specTitle (doc : Doc) : String :=
  match doc.metadata with
  | none => "Unknown"
  | some m =>
    match m.title with
    | none => "Unknown"
    | some t => t

/-- Modelled on the spec's words: the content shown for a document, empty when
missing. -/
def specContent (doc : Doc) : String :=
  match doc.content with
  | none => ""
  | some c => c

/-- Modelled on the spec's words: one document rendered as `[i] <title>` then a
newline then `<content>`. -/
def specRender (i : Nat) (doc : Doc) : String :=
  "[" ++ natStr i ++ "] " ++ specTitle doc ++ "\n" ++ specContent doc

/-- Modelled on the spec's words: the renderings of the documents, 1-indexed in
input order. -/
def specParts : Nat → List Doc → List String
  | _, [] => []
  | i, d :: ds => specRender i d :: specParts (i + 1) ds

/-- Modelled on the spec's words: joining renderings with blank-line separators. -/
def specJoin : List String → String
  | [] => ""
  | [p] => p
  | p :: q :: rest => p ++ "\n\n" ++ specJoin (q :: rest)

/-- Modelled on the spec's words: the whole context block. -/
def specFormatContext (docs : List Doc) : String := specJoin (specParts 1 docs)

/-- Accumulator and finished segments of a newline split, head segment first. -/
def splitOnNlCore : List Char → List Char × List (List Char)
  | [] => ([], [])
  | c :: cs =>
    let r := splitOnNlCore cs
    if c = '\n' then ([], r.1 :: r.2) else (c :: r.1, r.2)

/-- The lines of a character list, splitting on newline characters. -/
def splitOnNl (l : List Char) : List (List Char) :=
  (splitOnNlCore l).1 :: (splitOnNlCore l).2

/-- The document index `j` (searched among `1 … n`) whose citation marker
`[j]` starts the given line, if any. -/
def lineMarker (n : Nat) (line : List Char) : Option Nat :=
  (List.range' 1 n).find? (fun j => leadMatch (marker j).data line)

/-- The sequence of document indices whose markers start the successive lines
of a string, in line order. -/
def markerLines (n : Nat) (s : String) : List Nat :=
  (splitOnNl s.data).filterMap (lineMarker n)

/-- The title a document is rendered with (default "Unknown"). -/
def docTitle (d : Doc) : String := (d.metadata.getD emptyMetadata).title.getD "Unknown"

/-- The content a document is rendered with (default empty). -/
def docContent (d : Doc) : String := d.content.getD ""

/-- A document whose rendering cannot fake a marker line: its rendered title
holds no newline and no line of its content starts with a marker `[j]`,
`1 ≤ j ≤ n`. -/
def cleanDoc (n : Nat) (d : Doc) : Prop :=
  '\n' ∉ (docTitle d).data ∧
    ∀ line ∈ splitOnNl (docContent d).data, lineMarker n line = none

instance (n : Nat) (d : Doc) : Decidable (cleanDoc n d) := by
  unfold cleanDoc
  infer_instance

/-! ### Shared helper lemmas -/

/-- Membership in an `enumFrom 1` enumeration is position lookup at `i - 1`. -/
lemma mem_enumFrom_one {docs : List Doc} {i : Nat} {d : Doc} :
    (i, d) ∈ List.enumFrom 1 docs ↔ 1 ≤ i ∧ docs[i-1]? = some d := by
  rw [List.mk_mem_enumFrom_iff_le_and_getElem?_sub]

/-- Membership in the extracted citation list, unfolded to the enumerated
document it came from. -/
lemma mem_extractCitations {answer : String} {docs : List Doc} {c : Citation} :
    c ∈ extractCitations answer docs ↔
      ∃ i d, (i, d) ∈ List.enumFrom 1 docs ∧ pyIn (marker i) answer = true ∧
        c = mkCitation i d := by
  constructor
  · intro hc
    rcases List.mem_map.mp hc with ⟨p, hp, hpc⟩
    rcases List.mem_filter.mp hp with ⟨hmem, hfilt⟩
    exact ⟨p.1, p.2, hmem, hfilt, hpc.symm⟩
  · rintro ⟨i, d, hmem, hfilt, rfl⟩
    exact List.mem_map.mpr ⟨(i, d), List.mem_filter.mpr ⟨hmem, hfilt⟩, rfl⟩

/-- The head character of a contained substring occurs in the containing list. -/
lemma head_mem_of_containsSub {c : Char} {ns : List Char} :
    ∀ {hay : List Char}, containsSub (c :: ns) hay = true → c ∈ hay := by
  intro hay
  induction hay with
  | nil => intro h; simp [containsSub, List.isEmpty] at h
  | cons x hs ih =>
    intro h
    rw [containsSub, Bool.or_eq_true] at h
    rcases h with h | h
    · rw [leadMatch, Bool.and_eq_true] at h
      exact (beq_iff_eq.mp h.1) ▸ List.mem_cons_self x hs
    · exact List.mem_cons_of_mem x (ih h)

/-- A citation marker always starts with an opening bracket. -/
lemma marker_data (i : Nat) : (marker i).data = '[' :: (natChars i ++ [']']) := rfl

/-- An answer containing no opening bracket yields no citations at all. -/
lemma extractCitations_eq_nil_of_no_bracket {answer : String}
    (h : '[' ∉ answer.data) (docs : List Doc) :
    extractCitations answer docs = [] := by
  have hfilt : (List.enumFrom 1 docs).filter (fun p => pyIn (marker p.1) answer) = [] := by
    apply List.filter_eq_nil_iff.mpr
    intro p _ hp
    have hp' : containsSub ('[' :: (natChars p.1 ++ [']'])) answer.data = true := hp
    exact h (head_mem_of_containsSub hp')
  simp [extractCitations, hfilt]

/-- Appending the default title and empty default content to a numbered marker
collapses to a single literal tail. -/
lemma append_unknown_line (a : String) :
    a ++ "] " ++ "Unknown" ++ "\n" ++ "" = a ++ "] Unknown\n" := by
  rw [String.append_assoc, String.append_assoc, String.append_assoc]
  congr 1

/-- Every character emitted by `digitChar` is a decimal digit. -/
lemma digitChar_isDigit (d : Nat) : (digitChar d).isDigit = true := by
  match d with
  | 0 | 1 | 2 | 3 | 4 | 5 | 6 | 7 | 8 | 9 => rfl
  | _ + 10 => rfl

/-- Numeric value of a single-digit character. -/
lemma digitChar_val (d : Nat) (h : d < 10) : (digitChar d).toNat - 48 = d := by
  interval_cases d <;> rfl

/-- Every character of the fuel-driven decimal expansion is a digit. -/
lemma natCharsAux_digits :
    ∀ (fuel n : Nat), ∀ c ∈ natCharsAux fuel n, c.isDigit = true := by
  intro fuel
  induction fuel with
  | zero => intro n c hc; simp [natCharsAux] at hc
  | succ fuel ih =>
    intro n c hc
    rw [natCharsAux] at hc
    by_cases hn : n = 0
    · simp [hn] at hc
    · rw [if_neg hn, List.mem_append] at hc
      rcases hc with hc | hc
      · exact ih (n / 10) c hc
      · rw [List.mem_singleton] at hc
        exact hc ▸ digitChar_isDigit (n % 10)

/-- Every character of the decimal rendering is a digit. -/
lemma natChars_digits (n : Nat) : ∀ c ∈ natChars n, c.isDigit = true := by
  intro c hc
  rw [natChars] at hc
  by_cases hn : n = 0
  · rw [if_pos hn, List.mem_singleton] at hc
    exact hc ▸ rfl
  · rw [if_neg hn] at hc
    exact natCharsAux_digits n n c hc

/-- Folding the digit-value step over the fuel-driven expansion recovers the
number (relative to an accumulator). -/
lemma natCharsAux_val :
    ∀ (fuel n acc : Nat), n ≤ fuel →
      List.foldl (fun a c => a * 10 + (c.toNat - 48)) acc (natCharsAux fuel n) =
        acc * 10 ^ (natCharsAux fuel n).length + n := by
  intro fuel
  induction fuel with
  | zero =>
    intro n acc hn
    have : n = 0 := by omega
    subst this
    simp [natCharsAux]
  | succ fuel ih =>
    intro n acc hn
    by_cases h0 : n = 0
    · subst h0
      simp [natCharsAux]
    · have hdiv : n / 10 ≤ fuel := by
        have : n / 10 < n := Nat.div_lt_self (by omega) (by omega)
        omega
      rw [natCharsAux, if_neg h0, List.foldl_append]
      rw [ih (n / 10) acc hdiv]
      have hmod : (digitChar (n % 10)).toNat - 48 = n % 10 :=
        digitChar_val (n % 10) (Nat.mod_lt n (by omega))
      rw [List.foldl_cons, List.foldl_nil, hmod]
      rw [List.length_append, List.length_singleton]
      have hsplit : 10 * (n / 10) + n % 10 = n := Nat.div_add_mod n 10
      rw [pow_succ]
      nlinarith [hsplit]

/-- The decimal rendering decodes back to the number. -/
lemma valChars_natChars (n : Nat) : valChars (natChars n) = n := by
  rw [natChars]
  by_cases h0 : n = 0
  · subst h0; rfl
  · rw [if_neg h0]
    have := natCharsAux_val n n 0 (le_refl n)
    simpa [valChars] using this

/-- Decimal renderings of distinct numbers differ. -/
lemma natChars_inj {a b : Nat} (h : natChars a = natChars b) : a = b := by
  have := valChars_natChars a
  rw [h, valChars_natChars b] at this
  exact this.symm

/-- Decimal digits are not the closing bracket and not the newline. -/
lemma isDigit_ne (c : Char) (h : c.isDigit = true) : c ≠ ']' ∧ c ≠ '\n' := by
  constructor <;> intro he <;> rw [he] at h <;> exact absurd h (by decide)

/-- A digit string followed by a closing bracket starts another
bracket-terminated digit string exactly when the digit strings agree. -/
lemma leadMatch_digit_codes :
    ∀ (d1 : List Char), (∀ c ∈ d1, c.isDigit = true) →
      ∀ (d2 : List Char), (∀ c ∈ d2, c.isDigit = true) →
        ∀ r : List Char, (leadMatch (d1 ++ [']']) (d2 ++ ']' :: r) = true ↔ d1 = d2) := by
  intro d1
  induction d1 with
  | nil =>
    intro _ d2 h2 r
    cases d2 with
    | nil => simp [leadMatch]
    | cons b bs =>
      have hb : b ≠ ']' := (isDigit_ne b (h2 b (List.mem_cons_self b bs))).1
      constructor
      · intro h
        rw [List.nil_append, List.cons_append, leadMatch, Bool.and_eq_true] at h
        exact absurd (beq_iff_eq.mp h.1).symm hb
      · intro h
        exact absurd h (by simp)
  | cons a as ih =>
    intro h1 d2 h2 r
    have ha : a ≠ ']' := (isDigit_ne a (h1 a (List.mem_cons_self a as))).1
    cases d2 with
    | nil =>
      constructor
      · intro h
        rw [List.cons_append, List.nil_append, leadMatch, Bool.and_eq_true] at h
        exact absurd (beq_iff_eq.mp h.1) ha
      · intro h
        exact absurd h (by simp)
    | cons b bs =>
      have ih' := ih (fun c hc => h1 c (List.mem_cons_of_mem a hc)) bs
        (fun c hc => h2 c (List.mem_cons_of_mem b hc)) r
      by_cases hab : a = b
      · subst hab
        rw [List.cons_append, List.cons_append, leadMatch]
        simp only [beq_self_eq_true, Bool.true_and]
        rw [ih']
        constructor
        · intro h; rw [h]
        · intro h; exact (List.cons.injEq a as a bs).mp h |>.2
      · rw [List.cons_append, List.cons_append, leadMatch]
        constructor
        · intro h
          rw [Bool.and_eq_true] at h
          exact absurd (beq_iff_eq.mp h.1) hab
        · intro h
          exact absurd ((List.cons.injEq a as b bs).mp h).1 hab

/-- A marker `[j]` starts the marker line of document `i` exactly when `j = i`. -/
lemma leadMatch_marker_line (j i : Nat) (tail : List Char) :
    (leadMatch (marker j).data ('[' :: (natChars i ++ ']' :: tail)) = true) ↔ j = i := by
  rw [marker_data, leadMatch]
  simp only [beq_self_eq_true, Bool.true_and]
  rw [leadMatch_digit_codes (natChars j) (natChars_digits j) (natChars i)
    (natChars_digits i) tail]
  constructor
  · exact fun h => natChars_inj h
  · intro h; rw [h]

/-- If exactly one element of a list satisfies the predicate, `find?` finds it. -/
lemma find?_eq_some_of_unique {p : Nat → Bool} :
    ∀ (l : List Nat) (i : Nat), i ∈ l → (∀ j, p j = true ↔ j = i) →
      l.find? p = some i := by
  intro l
  induction l with
  | nil => intro i hi; cases hi
  | cons a as ih =>
    intro i hi hp
    by_cases hpa : p a = true
    · have haeq : a = i := (hp a).mp hpa
      rw [List.find?_cons_of_pos as hpa, haeq]
    · have hai : a ≠ i := fun he => hpa ((hp a).mpr he)
      have hi' : i ∈ as := by
        rcases List.mem_cons.mp hi with h | h
        · exact absurd h.symm hai
        · exact h
      rw [List.find?_cons_of_neg as (by simp [hpa])]
      exact ih i hi' hp

/-- The marker line of document `i` is attributed to `i` by `lineMarker`. -/
lemma lineMarker_marker_line (n i : Nat) (tail : List Char) (h1 : 1 ≤ i) (h2 : i ≤ n) :
    lineMarker n ('[' :: (natChars i ++ ']' :: tail)) = some i := by
  apply find?_eq_some_of_unique
  · exact List.mem_range'_1.mpr ⟨h1, by omega⟩
  · intro j
    exact leadMatch_marker_line j i tail

/-- The empty line carries no marker. -/
lemma lineMarker_nil (n : Nat) : lineMarker n [] = none := by
  apply List.find?_eq_none.mpr
  intro j _
  simp [marker_data, leadMatch]

/-- Splitting after an interior newline splits around it. -/
lemma splitOnNlCore_append_nl :
    ∀ xs ys : List Char,
      splitOnNlCore (xs ++ '\n' :: ys) =
        ((splitOnNlCore xs).1, (splitOnNlCore xs).2 ++ splitOnNl ys) := by
  intro xs ys
  induction xs with
  | nil => simp [splitOnNlCore, splitOnNl]
  | cons c cs ih =>
    by_cases hc : c = '\n' <;> simp [splitOnNlCore, ih, hc, splitOnNl]

/-- The lines of a string around an interior newline. -/
lemma splitOnNl_append_nl (xs ys : List Char) :
    splitOnNl (xs ++ '\n' :: ys) = splitOnNl xs ++ splitOnNl ys := by
  simp [splitOnNl, splitOnNlCore_append_nl]

/-- A newline-free character list is a single line. -/
lemma splitOnNlCore_no_nl :
    ∀ xs : List Char, '\n' ∉ xs → splitOnNlCore xs = (xs, []) := by
  intro xs
  induction xs with
  | nil => intro _; rfl
  | cons c cs ih =>
    intro h
    have hc : ¬ (c = '\n') := fun he => h (he ▸ List.mem_cons_self c cs)
    have hcs : '\n' ∉ cs := fun hm => h (List.mem_cons_of_mem c hm)
    simp [splitOnNlCore, hc, ih hcs]

/-- A newline-free character list splits into itself alone. -/
lemma splitOnNl_no_nl (xs : List Char) (h : '\n' ∉ xs) : splitOnNl xs = [xs] := by
  simp [splitOnNl, splitOnNlCore_no_nl xs h]

/-- The character data of a rendered document, in right-nested form. -/
lemma renderDoc_data (i : Nat) (d : Doc) :
    (renderDoc i d).data =
      ('[' :: (natChars i ++ ']' :: ' ' :: (docTitle d).data)) ++
        '\n' :: (docContent d).data := by
  have e1 : ("[" : String).data = ['['] := rfl
  have e2 : ("] " : String).data = [']', ' '] := rfl
  have e3 : ("\n" : String).data = ['\n'] := rfl
  have e4 : (natStr i).data = natChars i := rfl
  simp [renderDoc, docTitle, docContent, String.data_append, e1, e2, e3, e4,
    List.append_assoc]

/-- The marker-line trace of one rendered clean document is its own index. -/
lemma markers_of_renderDoc (n i : Nat) (d : Doc) (h1 : 1 ≤ i) (h2 : i ≤ n)
    (hd : cleanDoc n d) :
    (splitOnNl (renderDoc i d).data).filterMap (lineMarker n) = [i] := by
  rcases hd with ⟨ht, hc⟩
  rw [renderDoc_data, splitOnNl_append_nl, List.filterMap_append]
  have hfl : '\n' ∉ ('[' :: (natChars i ++ ']' :: ' ' :: (docTitle d).data)) := by
    intro hmem
    rcases List.mem_cons.mp hmem with h | h
    · exact absurd h (by decide)
    · rcases List.mem_append.mp h with h | h
      · exact absurd (natChars_digits i '\n' h) (by decide)
      · rcases List.mem_cons.mp h with h | h
        · exact absurd h (by decide)
        · rcases List.mem_cons.mp h with h | h
          · exact absurd h (by decide)
          · exact ht h
  rw [splitOnNl_no_nl _ hfl]
  have hfirst : ([('[' :: (natChars i ++ ']' :: ' ' :: (docTitle d).data))]).filterMap
      (lineMarker n) = [i] := by
    rw [List.filterMap_cons]
    have : lineMarker n ('[' :: (natChars i ++ ']' :: ' ' :: (docTitle d).data)) = some i :=
      lineMarker_marker_line n i (' ' :: (docTitle d).data) h1 h2
    rw [this, List.filterMap_nil]
  rw [hfirst, List.filterMap_eq_nil_iff.mpr hc]
  rfl

/-- Splitting directly after a leading newline prepends an empty line. -/
lemma splitOnNl_nl_cons (zs : List Char) : splitOnNl ('\n' :: zs) = [] :: splitOnNl zs := by
  simp [splitOnNl, splitOnNlCore]

/-- The marker-line trace of the joined renderings of clean documents
enumerated from `start` is exactly `start, start+1, …`. -/
lemma markers_of_parts (n : Nat) :
    ∀ (docs : List Doc) (start : Nat), 1 ≤ start → start + docs.length ≤ n + 1 →
      (∀ d ∈ docs, cleanDoc n d) →
      (splitOnNl (joinSep "\n\n"
          ((List.enumFrom start docs).map (fun p => renderDoc p.1 p.2))).data).filterMap
        (lineMarker n) = List.range' start docs.length := by
  intro docs
  induction docs with
  | nil =>
    intro start _ _ _
    show (splitOnNl ("" : String).data).filterMap (lineMarker n) = []
    show ([[]] : List (List Char)).filterMap (lineMarker n) = []
    rw [List.filterMap_cons, lineMarker_nil, List.filterMap_nil]
  | cons d ds ih =>
    intro start hs hlen hclean
    have hd : cleanDoc n d := hclean d (List.mem_cons_self d ds)
    have hds : ∀ e ∈ ds, cleanDoc n e := fun e he => hclean e (List.mem_cons_of_mem d he)
    cases ds with
    | nil =>
      show (splitOnNl (renderDoc start d).data).filterMap (lineMarker n) =
        List.range' start 1
      rw [markers_of_renderDoc n start d hs (by simpa using hlen) hd]
      rfl
    | cons e es =>
      have hjoin : joinSep "\n\n"
          ((List.enumFrom start (d :: e :: es)).map (fun p => renderDoc p.1 p.2)) =
          renderDoc start d ++ "\n\n" ++ joinSep "\n\n"
            ((List.enumFrom (start + 1) (e :: es)).map (fun p => renderDoc p.1 p.2)) := rfl
      rw [hjoin]
      have hdata : (renderDoc start d ++ "\n\n" ++ joinSep "\n\n"
          ((List.enumFrom (start + 1) (e :: es)).map (fun p => renderDoc p.1 p.2))).data =
          (renderDoc start d).data ++ '\n' :: ('\n' :: (joinSep "\n\n"
            ((List.enumFrom (start + 1) (e :: es)).map (fun p => renderDoc p.1 p.2))).data) := by
        rw [String.data_append, String.data_append]
        rw [List.append_assoc]
        rfl
      rw [hdata, splitOnNl_append_nl, splitOnNl_nl_cons, List.filterMap_append,
        List.filterMap_cons, lineMarker_nil]
      rw [markers_of_renderDoc n start d hs (by simp at hlen ⊢; omega) hd]
      have hih := ih (start + 1) (by omega) (by simp at hlen ⊢; omega) hds
      rw [hih]
      have hr : List.range' start (e :: es).length.succ =
          start :: List.range' (start + 1) (e :: es).length := List.range'_succ start _ 1
      simp [hr]
      exact (List.range'_succ start (es.length + 1) 1).symm

/-! ### Claims -/

/-- C1: a citation for document `i` (1-based, in input order) appears in the
extracted sources exactly when the literal marker `[i]` occurs as a substring
of the answer text, and every such citation carries that document's index,
title, authors and year (as `mkCitation i d`). -/
theorem citation_iff_marker_in_answer (docs : List Doc) (answer : String) (i : Nat)
    (d : Doc) (hi : 1 ≤ i) (hget : docs[i-1]? = some d) :
    ((∃ c ∈ extractCitations answer docs, c.index = i) ↔ pyIn (marker i) answer = true) ∧
    (∀ c ∈ extractCitations answer docs, c.index = i → c = mkCitation i d) := by
  constructor
  · constructor
    · rintro ⟨c, hc, hidx⟩
      rcases mem_extractCitations.mp hc with ⟨j, e, _, hpy, rfl⟩
      have hj : j = i := hidx
      exact hj ▸ hpy
    · intro hpy
      exact ⟨mkCitation i d,
        mem_extractCitations.mpr ⟨i, d, mem_enumFrom_one.mpr ⟨hi, hget⟩, hpy, rfl⟩, rfl⟩
  · intro c hc hidx
    rcases mem_extractCitations.mp hc with ⟨j, e, hmem, _, rfl⟩
    have hj : j = i := hidx
    subst hj
    rcases mem_enumFrom_one.mp hmem with ⟨-, hget2⟩
    rw [hget] at hget2
    rw [Option.some.injEq] at hget2
    rw [hget2]

/-- C1 witness: one document, answer "See [1].": the citation appears, and it
is exactly the document's citation record. -/
theorem citation_iff_marker_in_answer_witness :
    (1 ≤ 1 ∧ ([(⟨some "c", some ⟨some "T", some "A", some 2020⟩⟩ : Doc)] : List Doc)[1-1]? =
      some ⟨some "c", some ⟨some "T", some "A", some 2020⟩⟩) ∧
    (((∃ c ∈ extractCitations "See [1]." [(⟨some "c", some ⟨some "T", some "A", some 2020⟩⟩ : Doc)],
        c.index = 1) ↔ pyIn (marker 1) "See [1]." = true) ∧
      (∀ c ∈ extractCitations "See [1]." [(⟨some "c", some ⟨some "T", some "A", some 2020⟩⟩ : Doc)],
        c.index = 1 → c = mkCitation 1 ⟨some "c", some ⟨some "T", some "A", some 2020⟩⟩)) :=
  ⟨⟨by decide, rfl⟩,
    citation_iff_marker_in_answer [⟨some "c", some ⟨some "T", some "A", some 2020⟩⟩]
      "See [1]." 1 ⟨some "c", some ⟨some "T", some "A", some 2020⟩⟩ (by decide) rfl⟩

/-- C2: if no credential (`api_key = None`) was supplied at construction, then
for every question and every documents list, `generate` returns the fixed
"not configured" placeholder answer and an empty sources list, for every
possible behavior of the language model (so the model is never consulted). -/
theorem generate_unconfigured_placeholder :
    ∀ (llm : String → String) (question : String) (docs : List Doc),
      generate (llmConfigured none) llm question docs = ⟨notConfiguredAnswer, []⟩ :=
  fun _ _ _ => rfl

/-- Rendering a single document agrees with the spec-side rendering. -/
lemma renderDoc_eq_specRender (i : Nat) (d : Doc) : renderDoc i d = specRender i d := by
  rcases d with ⟨content, metadata⟩
  rcases metadata with _ | m
  · rcases content with _ | c <;> rfl
  · rcases m with ⟨title, authors, year⟩
    rcases title with _ | t <;> rcases content with _ | c <;> rfl

/-- The enumerated renderings agree with the spec-side parts at any start index. -/
lemma enum_render_eq_specParts :
    ∀ (docs : List Doc) (i : Nat),
      (List.enumFrom i docs).map (fun p => renderDoc p.1 p.2) = specParts i docs := by
  intro docs
  induction docs with
  | nil => intro i; rfl
  | cons d ds ih =>
    intro i
    show renderDoc i d :: (List.enumFrom (i + 1) ds).map (fun p => renderDoc p.1 p.2) =
      specRender i d :: specParts (i + 1) ds
    rw [renderDoc_eq_specRender, ih]

/-- Joining with the blank-line separator agrees with the spec-side join. -/
lemma joinSep_eq_specJoin : ∀ parts : List String, joinSep "\n\n" parts = specJoin parts := by
  intro parts
  induction parts with
  | nil => rfl
  | cons p rest ih =>
    cases rest with
    | nil => rfl
    | cons q rest =>
      show p ++ "\n\n" ++ joinSep "\n\n" (q :: rest) = p ++ "\n\n" ++ specJoin (q :: rest)
      rw [ih]

/-- C3: the context block is exactly the spec-described block: each document
rendered as `[i] <title>` newline `<content>`, 1-indexed in input order, with
"Unknown" for a missing title and the empty string for missing content, joined
with blank-line separators. -/
theorem formatContext_eq_spec (docs : List Doc) :
    formatContext docs = specFormatContext docs := by
  show joinSep "\n\n" ((List.enumFrom 1 docs).map (fun p => renderDoc p.1 p.2)) =
    specJoin (specParts 1 docs)
  rw [enum_render_eq_specParts, joinSep_eq_specJoin]

/-- C4 counterexample: a document whose content itself starts with the line
`[1] x` makes the context block contain two lines starting with `[1]`, so the
claim as stated fails on this documents list. -/
theorem context_marker_lines_counterexample :
    ¬ (∀ docs : List Doc,
        markerLines docs.length (formatContext docs) = List.range' 1 docs.length) := by
  intro h
  have hx := h [⟨some "[1] x", none⟩]
  revert hx
  decide

/-- C4 (amended): for every documents list whose rendered titles contain no
newline and none of whose content lines starts with a citation marker `[j]`
(`1 ≤ j ≤ N`), the context block contains exactly one line starting with `[i]`
per document, in input order, with `i` from 1 to N, and no other line of the
block starts with such a marker. -/
theorem context_marker_lines (docs : List Doc)
    (h : ∀ d ∈ docs, cleanDoc docs.length d) :
    markerLines docs.length (formatContext docs) = List.range' 1 docs.length :=
  markers_of_parts docs.length docs 1 (le_refl 1) (by omega) h

/-- C4 witness: two well-behaved documents produce exactly the marker lines
`[1]` then `[2]`. -/
theorem context_marker_lines_witness :
    (∀ d ∈ ([⟨some "body text", some ⟨some "T", none, none⟩⟩, ⟨none, none⟩] : List Doc),
      cleanDoc 2 d) ∧
    markerLines 2 (formatContext
        [⟨some "body text", some ⟨some "T", none, none⟩⟩, ⟨none, none⟩]) =
      List.range' 1 2 :=
  ⟨by decide, context_marker_lines
    [⟨some "body text", some ⟨some "T", none, none⟩⟩, ⟨none, none⟩] (by decide)⟩

/-- C5: the sources list follows document input order — its index sequence is a
sublist of `[1, …, N]` — and on the spec's concrete example the two citations
come out as index 1 then index 2. -/
theorem sources_follow_input_order :
    (∀ (answer : String) (docs : List Doc),
      List.Sublist ((extractCitations answer docs).map Citation.index)
        (List.range' 1 docs.length)) ∧
    extractCitations "See [1] and [2]."
        [⟨none, some ⟨some "A", none, none⟩⟩, ⟨none, some ⟨some "B", none, none⟩⟩] =
      [⟨1, some "A", none, none⟩, ⟨2, some "B", none, none⟩] := by
  constructor
  · intro answer docs
    have h1 : (extractCitations answer docs).map Citation.index =
        ((List.enumFrom 1 docs).filter (fun p => pyIn (marker p.1) answer)).map Prod.fst := by
      simp only [extractCitations, List.map_map]
      rfl
    have h2 : List.Sublist
        (((List.enumFrom 1 docs).filter (fun p => pyIn (marker p.1) answer)).map Prod.fst)
        ((List.enumFrom 1 docs).map Prod.fst) :=
      (List.filter_sublist _).map Prod.fst
    rw [List.enumFrom_map_fst] at h2
    rw [h1]
    exact h2
  · decide

/-- C6: out-of-range citation markers are ignored: if `k` exceeds the number of
supplied documents, no citation with index `k` is ever produced. -/
theorem out_of_range_markers_ignored (docs : List Doc) (answer : String) (k : Nat)
    (h : docs.length < k) :
    ∀ c ∈ extractCitations answer docs, c.index ≠ k := by
  intro c hc
  rcases mem_extractCitations.mp hc with ⟨i, d, hmem, _, rfl⟩
  rcases mem_enumFrom_one.mp hmem with ⟨h1, hget⟩
  have hlt : i - 1 < docs.length := (List.getElem?_eq_some.mp hget).1
  have : i < k := by omega
  simpa [mkCitation] using Nat.ne_of_lt this

/-- C6 witness: with two documents and an answer citing `[3]`, no citation with
index 3 appears. -/
theorem out_of_range_markers_ignored_witness :
    ([(⟨none, none⟩ : Doc), ⟨none, none⟩] : List Doc).length < 3 ∧
      ∀ c ∈ extractCitations "uses [3] only" [(⟨none, none⟩ : Doc), ⟨none, none⟩],
        c.index ≠ 3 :=
  ⟨by decide, out_of_range_markers_ignored [⟨none, none⟩, ⟨none, none⟩] "uses [3] only" 3
    (by decide)⟩

/-- C7: for the empty documents list, context formatting yields the empty
string and citation extraction yields the empty sources list for every answer
text. -/
theorem empty_documents_empty_outputs (answer : String) :
    formatContext [] = "" ∧ extractCitations answer [] = [] :=
  ⟨rfl, rfl⟩

/-- C8: malformed documents (missing content, missing metadata, or metadata
missing its fields) are tolerated via default substitution: context formatting
uses the empty string for missing content and "Unknown" for a missing title,
and citation extraction builds a citation with absent fields, with both
functions total on such documents. -/
theorem malformed_documents_tolerated :
    ∀ (i : Nat) (authors : Option String) (year : Option Int),
      renderDoc i ⟨none, none⟩ = "[" ++ natStr i ++ "] Unknown\n" ∧
      renderDoc i ⟨none, some ⟨none, authors, year⟩⟩ = "[" ++ natStr i ++ "] Unknown\n" ∧
      mkCitation i ⟨none, none⟩ = ⟨i, none, none, none⟩ ∧
      mkCitation i ⟨none, some ⟨none, authors, year⟩⟩ = ⟨i, none, authors, year⟩ ∧
      formatContext [⟨none, none⟩] = "[1] Unknown\n" ∧
      extractCitations (marker 1) [⟨none, none⟩] = [⟨1, none, none, none⟩] := by
  intro i authors year
  refine ⟨?_, ?_, rfl, rfl, by decide, by decide⟩
  · exact append_unknown_line ("[" ++ natStr i)
  · exact append_unknown_line ("[" ++ natStr i)

/-- C9: inside `generate`, the returned sources list is the value of the pure
citation-extraction function on the returned answer text and the documents
list alone — in both the configured and the degraded branch — so two
invocations agreeing on answer text and documents agree on sources. -/
theorem sources_pure_function_of_answer_and_docs :
    ∀ (hasLLM : Bool) (llm : String → String) (question : String) (docs : List Doc),
      (generate hasLLM llm question docs).sources =
        extractCitations (generate hasLLM llm question docs).answer docs := by
  intro hasLLM llm question docs
  cases hasLLM with
  | true => rfl
  | false =>
    show ([] : List Citation) = extractCitations notConfiguredAnswer docs
    exact (extractCitations_eq_nil_of_no_bracket (by decide) docs).symm

/-- C10: the empty-string credential is falsy like an absent one, so it also
puts the generator in degraded mode: `generate` returns the fixed placeholder
with empty sources for every input and every model behavior. -/
theorem empty_api_key_degraded_mode :
    llmConfigured (some "") = false ∧
      ∀ (llm : String → String) (question : String) (docs : List Doc),
        generate (llmConfigured (some "")) llm question docs = ⟨notConfiguredAnswer, []⟩ :=
  ⟨rfl, fun _ _ _ => rfl⟩

end MediAssist
